import Mathlib

/-!
Verification of the compression debug/statistics tool (`debug_compression.py`).

The tool (`CompressionDebugger`) opens a SQLite database holding three
tables — `media_documents`, `document_types` and (optionally)
`compression_queue` — and runs a collection of read-only SQL queries over
them: a per-status overview, listings of compressed and failed documents, a
queue snapshot and a per-document-type analysis, plus a few pure helper
computations (byte formatting, savings percentages).

The embedding below models a database state as lists of rows, one structure
field per SQL column actually referenced, and each debugger method as a
function from the database state to the pair of the (unchanged) state and
the rows or values the method reports.  SQL semantics used:
`WHERE` is `List.filter`, `GROUP BY` aggregates the fiber of each key,
`ORDER BY x DESC` is a sort by the relation `fun a b => b.x ≤ a.x`
(ties are left unspecified by SQLite; we fix insertion sort), `LIMIT n` is
`List.take n`, `SUM`/`COUNT`/`AVG` fold over the group, `AND` binds tighter
than `OR` in `WHERE` clauses, and a `SELECT` never changes the database.
Numeric columns are `Int`; nullable ones are `Option Int`; real-valued
results of divisions are `ℚ`.
-/

namespace DebugCompression

/-- Row of the `media_documents` table, one field per column the debugger
reads (`SELECT` lists of `get_compression_overview`,
`get_compressed_documents`, `get_failed_compressions` and the joins of
`get_document_types_analysis`). -/
structure DocRow where
  id : String
  original_filename : String
  mime_type : String
  size_bytes : Int
  compressed_size_bytes : Option Int
  file_path : String
  compressed_file_path : Option String
  created_at : Int
  related_table : String
  compression_status : String
  has_error : Bool
  error_message : Option String
  type_id : String
deriving DecidableEq

/-- Row of the `compression_queue` table (columns of the snapshot query in
`get_compression_queue_status`). -/
structure QueueRow where
  document_id : String
  priority : Int
  status : String
  queued_at : Int
  started_at : Option Int
  completed_at : Option Int
  error_message : Option String
  attempts : Int
deriving DecidableEq

/-- Row of the `document_types` table (columns read by
`get_document_types_analysis`). -/
structure TypeRow where
  id : String
  name : String
  compression_level : Int
  compression_method : String
  min_size_for_compression : Option Int
deriving DecidableEq

/-- The database state the debugger queries.  `compression_queue = none`
models the absence of the table itself (the tool probes `sqlite_master`
for it before querying). -/
structure DB where
  media_documents : List DocRow
  compression_queue : Option (List QueueRow)
  document_types : List TypeRow
deriving DecidableEq

/-- `format_bytes`: `None` prints as `0 B`; otherwise the loop walks the
units `B, KB, MB, GB`, dividing by 1024 until the value drops below 1024,
and falls through to `TB`.  We model the numeric value and chosen unit
(the `.1f` float rendering is presentation only). -/
def format_bytes_go (v : ℚ) : List String → ℚ × String
  | [] => (v, "TB")
  | u :: us => if v < 1024 then (v, u) else format_bytes_go (v / 1024) us

/-- `format_bytes(bytes_val)` including the `None` guard. -/
def format_bytes : Option ℚ → ℚ × String
  | none => (0, "B")
  | some v => format_bytes_go v ["B", "KB", "MB", "GB"]

/-- Python `x or d` on a nullable integer column: `None` and the falsy `0`
both fall back to the default. -/
def pyOrInt (v : Option Int) (dflt : Int) : Int :=
  match v with
  | none => dflt
  | some c => if c = 0 then dflt else c

/-- Per-document savings in `get_compressed_documents`:
`savings = orig_size - (comp_size or orig_size)`. -/
def doc_savings (orig_size : Int) (comp_size : Option Int) : Int :=
  orig_size - pyOrInt comp_size orig_size

/-- Per-document savings percentage in `get_compressed_documents`:
`(savings / orig_size) * 100 if orig_size > 0 else 0`. -/
def doc_savings_percentage (orig_size : Int) (comp_size : Option Int) : ℚ :=
  if 0 < orig_size then ((doc_savings orig_size comp_size : ℚ) / (orig_size : ℚ)) * 100 else 0

/-- On-disk savings percentage in `check_file_existence`:
`savings = orig_size - comp_size` and
`(savings / orig_size) * 100 if orig_size > 0 else 0`. -/
def actual_savings_percentage (orig_size comp_size : Int) : ℚ :=
  if 0 < orig_size then (((orig_size - comp_size : Int) : ℚ) / (orig_size : ℚ)) * 100 else 0

/-- The non-sentinel documents: every listing and aggregation query of the
tool carries a `file_path != 'ERROR'` condition (except where precedence
breaks it, see `get_failed_compressions`). -/
def validDocs (db : DB) : List DocRow :=
  db.media_documents.filter (fun d => d.file_path != "ERROR")

/-- One `GROUP BY compression_status` group of the overview query:
`COUNT(*)`, `SUM(size_bytes)` and
`SUM(CASE WHEN compressed_size_bytes IS NOT NULL THEN compressed_size_bytes ELSE 0 END)`. -/
structure OvRow where
  status : String
  count : Int
  total_original_size : Int
  total_compressed_size : Int
deriving DecidableEq

/-- The aggregate for one status value over a document list. -/
def overviewRow (docs : List DocRow) (s : String) : OvRow :=
  let g := docs.filter (fun d => d.compression_status == s)
  { status := s
    count := (g.length : Int)
    total_original_size := (g.map (fun d => d.size_bytes)).sum
    total_compressed_size := (g.map (fun d => (d.compressed_size_bytes.getD 0))).sum }

/-- The Python accumulation loop over the fetched groups:
`total_docs += count; total_original += orig_size or 0;
total_compressed += comp_size or 0` (the group sums are never `NULL` for a
non-empty group, and `or 0` maps 0 to 0, so plain addition is faithful). -/
def overviewTotals (rows : List OvRow) : Int × Int × Int :=
  rows.foldl
    (fun acc r =>
      (acc.1 + r.count, acc.2.1 + r.total_original_size, acc.2.2 + r.total_compressed_size))
    (0, 0, 0)

/-- What `get_compression_overview` reports. -/
structure Overview where
  rows : List OvRow
  total_docs : Int
  total_original : Int
  total_compressed : Int
  savings_percentage : Option ℚ
deriving DecidableEq

/-- `get_compression_overview`: group the non-sentinel documents by
`compression_status` (`ORDER BY count DESC`), accumulate the totals, and
print the savings percentage only when both totals are positive. -/
def get_compression_overview (db : DB) : DB × Overview :=
  let docs := validDocs db
  let rows := List.insertionSort (fun a b => b.count ≤ a.count)
    (((docs.map (fun d => d.compression_status)).dedup).map (overviewRow docs))
  let t := overviewTotals rows
  (db,
    { rows := rows
      total_docs := t.1
      total_original := t.2.1
      total_compressed := t.2.2
      savings_percentage :=
        if 0 < t.2.2 ∧ 0 < t.2.1 then
          some ((((t.2.1 - t.2.2 : Int) : ℚ) / ((t.2.1 : Int) : ℚ)) * 100)
        else none })

/-- `get_compressed_documents`:
`WHERE compression_status = 'completed' AND compressed_file_path IS NOT NULL
AND file_path != 'ERROR' ORDER BY created_at DESC`. -/
def get_compressed_documents (db : DB) : DB × List DocRow :=
  (db, List.insertionSort (fun a b => b.created_at ≤ a.created_at)
    (db.media_documents.filter (fun d =>
      d.compression_status == "completed" && d.compressed_file_path.isSome &&
        d.file_path != "ERROR")))

/-- The `WHERE` clause of `get_failed_compressions` as SQLite parses it:
`compression_status = 'failed' OR has_error = 1 AND file_path != 'ERROR'`,
where `AND` binds tighter than `OR`, so the sentinel exclusion attaches to
the `has_error` disjunct only. -/
def failedFilter (d : DocRow) : Bool :=
  d.compression_status == "failed" || (d.has_error && d.file_path != "ERROR")

/-- `get_failed_compressions` (`ORDER BY created_at DESC`). -/
def get_failed_compressions (db : DB) : DB × List DocRow :=
  (db, List.insertionSort (fun a b => b.created_at ≤ a.created_at)
    (db.media_documents.filter failedFilter))

/-- The filter the specification ascribes to `failedDocuments()`: documents
satisfying `failed OR has_error`, with the sentinel rows excluded the same
way the other queries exclude them.  Stated from the claim's words, to be
compared with `failedFilter`. -/
def claimedFailedFilter (d : DocRow) : Bool :=
  (d.compression_status == "failed" || d.has_error) && d.file_path != "ERROR"

/-- Result of `get_compression_queue_status`: either the probe of
`sqlite_master` found no `compression_queue` table, or the snapshot rows. -/
inductive QueueStatusResult
  | noTable
  | entries (rows : List QueueRow)
deriving DecidableEq

/-- `get_compression_queue_status`: probe for the table, then
`SELECT ... FROM compression_queue ORDER BY queued_at DESC LIMIT 20`. -/
def get_compression_queue_status (db : DB) : DB × QueueStatusResult :=
  match db.compression_queue with
  | none => (db, QueueStatusResult.noTable)
  | some q =>
    (db, QueueStatusResult.entries
      ((List.insertionSort (fun a b => b.queued_at ≤ a.queued_at) q).take 20))

/-- The documents of one type matched by the left join of
`get_document_types_analysis`:
`LEFT JOIN media_documents md ON dt.id = md.type_id AND md.file_path != 'ERROR'`. -/
def typeDocs (db : DB) (dt : TypeRow) : List DocRow :=
  db.media_documents.filter (fun d => d.type_id == dt.id && d.file_path != "ERROR")

/-- One output row of `get_document_types_analysis`.  With no matched
document the left join produces a single all-`NULL` document side, so
`COUNT(md.id) = 0`, the three `SUM(CASE ...)` aggregates and the
compressed-size aggregate are 0 (their `ELSE 0` branch), and
`AVG(md.size_bytes)` and `SUM(md.size_bytes)` are `NULL`. -/
structure TypeAnalysisRow where
  type_name : String
  compression_level : Int
  compression_method : String
  min_size_for_compression : Option Int
  doc_count : Int
  compressed_count : Int
  failed_count : Int
  skipped_count : Int
  avg_size : Option ℚ
  total_original_size : Option Int
  total_compressed_size : Int
deriving DecidableEq

/-- The aggregate row for one document type.  `document_types.id` is the
table's key, so `GROUP BY dt.id, dt.name` yields one group per type row. -/
def typeAnalysisRow (db : DB) (dt : TypeRow) : TypeAnalysisRow :=
  let g := typeDocs db dt
  { type_name := dt.name
    compression_level := dt.compression_level
    compression_method := dt.compression_method
    min_size_for_compression := dt.min_size_for_compression
    doc_count := (g.length : Int)
    compressed_count :=
      (g.map (fun d => if d.compression_status == "completed" then (1 : Int) else 0)).sum
    failed_count :=
      (g.map (fun d => if d.compression_status == "failed" then (1 : Int) else 0)).sum
    skipped_count :=
      (g.map (fun d => if d.compression_status == "skipped" then (1 : Int) else 0)).sum
    avg_size :=
      if g.length = 0 then none
      else some (((g.map (fun d => d.size_bytes)).sum : ℚ) / (g.length : ℚ))
    total_original_size :=
      if g.length = 0 then none else some ((g.map (fun d => d.size_bytes)).sum)
    total_compressed_size := (g.map (fun d => (d.compressed_size_bytes.getD 0))).sum }

/-- `get_document_types_analysis` (`ORDER BY doc_count DESC`). -/
def get_document_types_analysis (db : DB) : DB × List TypeAnalysisRow :=
  (db, List.insertionSort (fun a b => b.doc_count ≤ a.doc_count)
    (db.document_types.map (typeAnalysisRow db)))

/-- The sequence of database queries `run_full_debug` issues, threading the
database state through the five reporting methods. -/
def run_stats_queries (db : DB) : DB :=
  let db1 := (get_compression_overview db).1
  let db2 := (get_compressed_documents db1).1
  let db3 := (get_failed_compressions db2).1
  let db4 := (get_compression_queue_status db3).1
  let db5 := (get_document_types_analysis db4).1
  db5

/-- The documented invariant of the document store: `compressed_path` is
set if and only if the compression status is `completed`. -/
def storeInvariant (db : DB) : Prop :=
  ∀ d ∈ db.media_documents,
    (d.compressed_file_path ≠ none ↔ d.compression_status = "completed")

/-- The scenario document of the spec: 2,000,000 bytes compressed to
500,000 bytes. -/
def scenarioDoc : DocRow :=
  { id := "doc-1"
    original_filename := "report.pdf"
    mime_type := "application/pdf"
    size_bytes := 2000000
    compressed_size_bytes := some 500000
    file_path := "original/doc-1.pdf"
    compressed_file_path := some "compressed/doc-1.pdf.gz"
    created_at := 1
    related_table := "projects"
    compression_status := "completed"
    has_error := false
    error_message := none
    type_id := "t-pdf"
  }

/-- A database holding exactly the scenario document. -/
def scenarioDB : DB :=
  { media_documents := [scenarioDoc]
    compression_queue := some []
    document_types := [] }

/-- A database with documents but no `compression_queue` table. -/
def noQueueDB : DB :=
  { media_documents := [scenarioDoc]
    compression_queue := none
    document_types := [] }

/-- A document row carrying the sentinel `file_path = 'ERROR'` together
with `compression_status = 'failed'`: the precedence of the `WHERE` clause
of `get_failed_compressions` is visible on it. -/
def errorFailedDoc : DocRow :=
  { id := "doc-err"
    original_filename := "broken.pdf"
    mime_type := "application/pdf"
    size_bytes := 1000
    compressed_size_bytes := none
    file_path := "ERROR"
    compressed_file_path := none
    created_at := 2
    related_table := "projects"
    compression_status := "failed"
    has_error := false
    error_message := some "compression failed"
    type_id := "t-pdf" }

/-- A database holding only `errorFailedDoc`. -/
def sentinelFailedDB : DB :=
  { media_documents := [errorFailedDoc]
    compression_queue := none
    document_types := [] }

/-- A completed document whose `file_path` is the sentinel `'ERROR'` but
which satisfies the store invariant (`compressed_file_path` set). -/
def errorCompletedDoc : DocRow :=
  { id := "doc-c-err"
    original_filename := "odd.pdf"
    mime_type := "application/pdf"
    size_bytes := 5000
    compressed_size_bytes := some 1000
    file_path := "ERROR"
    compressed_file_path := some "compressed/odd.pdf.gz"
    created_at := 3
    related_table := "projects"
    compression_status := "completed"
    has_error := false
    error_message := none
    type_id := "t-pdf" }

/-- A database holding only `errorCompletedDoc`; it satisfies
`storeInvariant`. -/
def sentinelCompletedDB : DB :=
  { media_documents := [errorCompletedDoc]
    compression_queue := none
    document_types := [] }

/-- A document still pending compression (neither completed, failed nor
skipped). -/
def pendingDoc : DocRow :=
  { id := "doc-p"
    original_filename := "todo.pdf"
    mime_type := "application/pdf"
    size_bytes := 4000
    compressed_size_bytes := none
    file_path := "original/todo.pdf"
    compressed_file_path := none
    created_at := 4
    related_table := "projects"
    compression_status := "pending"
    has_error := false
    error_message := none
    type_id := "t1" }

/-- A document type owning `pendingDoc`. -/
def pdfType : TypeRow :=
  { id := "t1"
    name := "documents"
    compression_level := 6
    compression_method := "gzip"
    min_size_for_compression := some 1000000 }

/-- A database with one type and one pending document of that type. -/
def pendingTypeDB : DB :=
  { media_documents := [pendingDoc]
    compression_queue := none
    document_types := [pdfType] }

/-- Two queue rows with distinct `queued_at`, for exercising the snapshot
ordering. -/
def queueRowOld : QueueRow :=
  { document_id := "d1"
    priority := 5
    status := "completed"
    queued_at := 10
    started_at := some 11
    completed_at := some 12
    error_message := none
    attempts := 1 }

/-- The younger of the two example queue rows. -/
def queueRowNew : QueueRow :=
  { document_id := "d2"
    priority := 5
    status := "queued"
    queued_at := 20
    started_at := none
    completed_at := none
    error_message := none
    attempts := 0 }

/-- A database whose queue table holds the two example rows, oldest
first. -/
def smallQueueDB : DB :=
  { media_documents := []
    compression_queue := some [queueRowOld, queueRowNew]
    document_types := [] }

/-- Descending order on `queued_at` is transitive (for the snapshot
sort). -/
instance : IsTrans QueueRow (fun a b => b.queued_at ≤ a.queued_at) :=
  ⟨fun _ _ _ h1 h2 => le_trans h2 h1⟩

/-- Descending order on `queued_at` is total (for the snapshot sort). -/
instance : IsTotal QueueRow (fun a b => b.queued_at ≤ a.queued_at) :=
  ⟨fun a b => le_total b.queued_at a.queued_at⟩

/-- Modelled from the spec: the repository holds no queue implementation
under `src/` (only the Stats Reporter is implemented there), so the Job
rows `dequeue()` works on are modelled from §3 and §4.3 of the design:
`document_id`, `priority`, `status ∈ {queued, running, completed, failed}`
and `queued_at`. -/
structure MJob where
  document_id : String
  priority : Int
  status : String
  queued_at : Int
deriving DecidableEq

/-- A job eligible for claiming: its current status is `queued`. -/
def isQueued (j : MJob) : Bool := j.status == "queued"

/-- Modelled from the spec: the dequeue preference — strictly higher
priority first, ties broken by strictly older `queued_at` (FIFO within a
priority tier). -/
def preferredJob (j b : MJob) : Bool :=
  b.priority < j.priority || (j.priority == b.priority && j.queued_at < b.queued_at)

/-- The most preferred job of a list (none when the list is empty). -/
def selectBest : List MJob → Option MJob
  | [] => none
  | j :: rest =>
    match selectBest rest with
    | none => some j
    | some b => if preferredJob j b then some j else some b

/-- Modelled from the spec: `dequeue()` as one atomic conditional claim —
select the highest-priority, oldest eligible job and transition it
`queued → running` only if its current status is still `queued`; return
the claimed document id, or nothing when no job is eligible. -/
def dequeue (jobs : List MJob) : Option String × List MJob :=
  match selectBest (jobs.filter isQueued) with
  | none => (none, jobs)
  | some j =>
    (some j.document_id,
      jobs.map (fun k =>
        if k.document_id == j.document_id && isQueued k then
          { k with status := "running" }
        else k))

/-- An interleaving of `n` workers each performing one atomic `dequeue()`:
the list of claimed document ids and the final queue state. -/
def runDequeues : Nat → List MJob → List String × List MJob
  | 0, jobs => ([], jobs)
  | n + 1, jobs =>
    let step := dequeue jobs
    let rest := runDequeues n step.2
    (step.1.toList ++ rest.1, rest.2)

/-- Claimed ids never point at a still-`queued` job: the invariant carried
through an interleaving of dequeues. -/
def NoQueuedClaim (claimed : List String) (jobs : List MJob) : Prop :=
  ∀ c ∈ claimed, ∀ j ∈ jobs, j.document_id = c → j.status ≠ "queued"

/-- CLAIM C3: every Stats Reporter operation — the overview, the two
filtered listings, the queue snapshot and the per-type analysis — and their
composition in `run_full_debug` leave the database state unchanged. -/
theorem claim_C3_reads_only (db : DB) :
    (get_compression_overview db).1 = db ∧
    (get_compressed_documents db).1 = db ∧
    (get_failed_compressions db).1 = db ∧
    (get_compression_queue_status db).1 = db ∧
    (get_document_types_analysis db).1 = db ∧
    run_stats_queries db = db := by
  have hq : (get_compression_queue_status db).1 = db := by
    cases h : db.compression_queue <;> simp [get_compression_queue_status, h]
  refine ⟨rfl, rfl, rfl, hq, rfl, ?_⟩
  simp [run_stats_queries, get_compression_overview, get_compressed_documents,
    get_failed_compressions, get_document_types_analysis, hq]

/-- CLAIM C10: when the `compression_queue` table is absent, the queue
snapshot returns the no-table report and leaves the database unchanged. -/
theorem claim_C10_missing_queue_table (db : DB) (h : db.compression_queue = none) :
    get_compression_queue_status db = (db, QueueStatusResult.noTable) := by
  simp [get_compression_queue_status, h]

/-- Witness for C10 at a concrete database with no queue table. -/
theorem claim_C10_missing_queue_table_witness :
    get_compression_queue_status noQueueDB = (noQueueDB, QueueStatusResult.noTable) :=
  claim_C10_missing_queue_table noQueueDB rfl

/-- CLAIM C8: the savings computations are total and guarded — a `None`
compressed size yields a savings of 0 bytes (the compressed size defaults
to the original), and a zero original size yields a 0 savings percentage
instead of a division by zero, both for the database sizes and for the
on-disk sizes. -/
theorem claim_C8_savings_guards (orig : Int) (comp : Option Int) (c : Int) :
    doc_savings orig none = 0 ∧
    doc_savings_percentage 0 comp = 0 ∧
    actual_savings_percentage 0 c = 0 := by
  refine ⟨?_, ?_, ?_⟩
  · simp [doc_savings, pyOrInt]
  · simp [doc_savings_percentage]
  · simp [actual_savings_percentage]

/-- CLAIM C9: `format_bytes` maps `None` to `0 B` and any other value to
the pair of the value divided by `1024 ^ k` and the matching unit, where
`k ≤ 3` is the least exponent making the quotient drop below 1024, falling
through to the `TB` value `q / 1024 ^ 4` when none does. -/
theorem claim_C9_format_bytes (q : ℚ) :
    format_bytes none = (0, "B") ∧
    format_bytes (some q) =
      (if q < 1024 then (q, "B")
       else if q / 1024 < 1024 then (q / 1024, "KB")
       else if q / 1024 ^ 2 < 1024 then (q / 1024 ^ 2, "MB")
       else if q / 1024 ^ 3 < 1024 then (q / 1024 ^ 3, "GB")
       else (q / 1024 ^ 4, "TB")) := by
  have h2 : q / 1024 / 1024 = q / 1024 ^ 2 := by ring
  have h3 : q / 1024 ^ 2 / 1024 = q / 1024 ^ 3 := by ring
  have h4 : q / 1024 ^ 3 / 1024 = q / 1024 ^ 4 := by ring
  refine ⟨rfl, ?_⟩
  simp only [format_bytes, format_bytes_go, h2, h3, h4]

/-- Summing a pointwise sum of two integer maps splits into two sums. -/
theorem sum_map_split {α : Type} (f g : α → Int) (l : List α) :
    (l.map (fun x => f x + g x)).sum = (l.map f).sum + (l.map g).sum := by
  induction l with
  | nil => simp
  | cons x t ih => simp [ih]; ring

/-- Summing the constant 1 over a list counts its length. -/
theorem sum_map_one {α : Type} (l : List α) :
    (l.map (fun _ => (1 : Int))).sum = (l.length : Int) := by
  induction l with
  | nil => simp
  | cons x t ih => simp [ih, add_comm]

/-- Over a duplicate-free list, an indicator of one key sums to its
presence. -/
theorem sum_map_indicator {β : Type} [DecidableEq β] (a : β) (c : Int) :
    ∀ S : List β, S.Nodup →
      (S.map (fun s => if a == s then c else 0)).sum = if a ∈ S then c else 0 := by
  intro S
  induction S with
  | nil => simp
  | cons s S ih =>
    intro hnd
    rcases List.nodup_cons.mp hnd with ⟨hs, hnd'⟩
    rw [List.map_cons, List.sum_cons, ih hnd']
    by_cases h : a = s
    · subst h
      simp [hs]
    · simp [h, beq_iff_eq]

/-- A filtered sum over a cons peels the head off through the filter. -/
theorem fiber_sum_cons {α : Type} (p : α → Bool) (f : α → Int) (x : α) (t : List α) :
    (((x :: t).filter p).map f).sum = (if p x then f x else 0) + ((t.filter p).map f).sum := by
  by_cases h : p x <;> simp [List.filter_cons, h]

/-- Grouping a list by a key (as SQL `GROUP BY` does: one group per
distinct key value) and summing each group's sum gives the total sum. -/
theorem sum_fiberwise {α β : Type} [DecidableEq β] (key : α → β) (f : α → Int) :
    ∀ l : List α,
      (((l.map key).dedup).map
          (fun s => ((l.filter (fun x => key x == s)).map f).sum)).sum
        = (l.map f).sum := by
  intro l
  induction l with
  | nil => simp
  | cons x t ih =>
    have hsplit : ∀ S : List β, S.Nodup →
        (S.map (fun s => (((x :: t).filter (fun y => key y == s)).map f).sum)).sum
          = (if key x ∈ S then f x else 0)
            + (S.map (fun s => ((t.filter (fun y => key y == s)).map f).sum)).sum := by
      intro S hnd
      have h1 : (S.map (fun s => (((x :: t).filter (fun y => key y == s)).map f).sum))
          = (S.map (fun s => (if key x == s then f x else 0)
              + ((t.filter (fun y => key y == s)).map f).sum)) := by
        refine List.map_congr_left ?_
        intro s _
        exact fiber_sum_cons _ f x t
      rw [h1, sum_map_split (fun s => if key x == s then f x else 0)
        (fun s => ((t.filter (fun y => key y == s)).map f).sum) S,
        sum_map_indicator (key x) (f x) S hnd]
    by_cases hmem : key x ∈ t.map key
    · rw [List.map_cons, List.dedup_cons_of_mem hmem,
        hsplit _ (List.nodup_dedup _), if_pos (List.mem_dedup.mpr hmem), ih]
      simp
    · rw [List.map_cons, List.dedup_cons_of_not_mem hmem, List.map_cons, List.sum_cons,
        hsplit _ (List.nodup_dedup _)]
      have hx0 : ((t.filter (fun y => key y == key x)).map f).sum = 0 := by
        have hnil : t.filter (fun y => key y == key x) = [] := by
          rw [List.filter_eq_nil_iff]
          intro a ha hkey
          exact hmem (List.mem_map.mpr ⟨a, ha, by simpa using hkey⟩)
        simp [hnil]
      have hnotin : key x ∉ (t.map key).dedup := fun h => hmem (List.mem_dedup.mp h)
      rw [if_neg hnotin, fiber_sum_cons, ih]
      simp [hx0]

/-- The accumulation loop of the overview equals the componentwise sums of
the fetched group rows. -/
theorem overviewTotals_eq (rows : List OvRow) :
    overviewTotals rows =
      ((rows.map (fun r => r.count)).sum,
       (rows.map (fun r => r.total_original_size)).sum,
       (rows.map (fun r => r.total_compressed_size)).sum) := by
  suffices h : ∀ (rows : List OvRow) (a b c : Int),
      rows.foldl
        (fun acc r =>
          (acc.1 + r.count, acc.2.1 + r.total_original_size, acc.2.2 + r.total_compressed_size))
        (a, b, c)
        = (a + (rows.map (fun r => r.count)).sum,
           b + (rows.map (fun r => r.total_original_size)).sum,
           c + (rows.map (fun r => r.total_compressed_size)).sum) by
    simpa [overviewTotals] using h rows 0 0 0
  intro rows
  induction rows with
  | nil => intro a b c; simp
  | cons r t ih =>
    intro a b c
    simp only [List.foldl_cons, List.map_cons, List.sum_cons, ih]
    simp [Prod.ext_iff]
    omega

/-- The overview's fetched rows are a permutation of one aggregate row per
distinct status of the non-sentinel documents. -/
theorem overview_rows_perm (db : DB) :
    (get_compression_overview db).2.rows.Perm
      ((((validDocs db).map (fun d => d.compression_status)).dedup).map
        (overviewRow (validDocs db))) :=
  List.perm_insertionSort _ _

/-- CLAIM C2: the overview reports, per compression status, the count of
non-sentinel documents of that status and their summed original and
compressed bytes (a `NULL` compressed size counted as 0); the accumulated
totals equal the corresponding sums over all non-sentinel documents; when
both totals are positive the savings percentage is
`(total_original - total_compressed) / total_original * 100`; and on the
scenario document (2,000,000 bytes compressed to 500,000) it reports
2,000,000 / 500,000 / 75%. -/
theorem claim_C2_overview (db : DB) :
    (get_compression_overview db).2.total_docs = ((validDocs db).length : Int) ∧
    (get_compression_overview db).2.total_original
        = ((validDocs db).map (fun d => d.size_bytes)).sum ∧
    (get_compression_overview db).2.total_compressed
        = ((validDocs db).map (fun d => d.compressed_size_bytes.getD 0)).sum ∧
    (∀ r ∈ (get_compression_overview db).2.rows,
      r.count = (((validDocs db).filter
          (fun d => d.compression_status == r.status)).length : Int) ∧
      r.total_original_size = (((validDocs db).filter
          (fun d => d.compression_status == r.status)).map (fun d => d.size_bytes)).sum ∧
      r.total_compressed_size = (((validDocs db).filter
          (fun d => d.compression_status == r.status)).map
            (fun d => d.compressed_size_bytes.getD 0)).sum) ∧
    (∀ s : String,
      (∃ r ∈ (get_compression_overview db).2.rows, r.status = s)
        ↔ ∃ d ∈ validDocs db, d.compression_status = s) ∧
    (0 < (get_compression_overview db).2.total_compressed →
      0 < (get_compression_overview db).2.total_original →
      (get_compression_overview db).2.savings_percentage
        = some (((((get_compression_overview db).2.total_original
                - (get_compression_overview db).2.total_compressed : Int) : ℚ)
            / (((get_compression_overview db).2.total_original : Int) : ℚ)) * 100)) ∧
    (get_compression_overview scenarioDB).2.total_original = 2000000 ∧
    (get_compression_overview scenarioDB).2.total_compressed = 500000 ∧
    (get_compression_overview scenarioDB).2.savings_percentage = some 75 := by
  have hperm := overview_rows_perm db
  have hcnt : (((get_compression_overview db).2.rows).map (fun r => r.count)).sum
      = ((validDocs db).length : Int) := by
    rw [(hperm.map (fun r => r.count)).sum_eq, List.map_map]
    have hcong : ((((validDocs db).map (fun d => d.compression_status)).dedup).map
          ((fun r => r.count) ∘ overviewRow (validDocs db)))
        = ((((validDocs db).map (fun d => d.compression_status)).dedup).map
          (fun s => (((validDocs db).filter
            (fun d => d.compression_status == s)).map (fun _ => (1 : Int))).sum)) := by
      refine List.map_congr_left ?_
      intro s _
      simp [overviewRow, Function.comp, sum_map_one]
    rw [hcong, sum_fiberwise (fun d => d.compression_status) (fun _ => (1 : Int)) (validDocs db),
      sum_map_one]
  have horig : (((get_compression_overview db).2.rows).map (fun r => r.total_original_size)).sum
      = ((validDocs db).map (fun d => d.size_bytes)).sum := by
    rw [(hperm.map (fun r => r.total_original_size)).sum_eq, List.map_map]
    have hcong : ((((validDocs db).map (fun d => d.compression_status)).dedup).map
          ((fun r => r.total_original_size) ∘ overviewRow (validDocs db)))
        = ((((validDocs db).map (fun d => d.compression_status)).dedup).map
          (fun s => (((validDocs db).filter
            (fun d => d.compression_status == s)).map (fun d => d.size_bytes)).sum)) := by
      refine List.map_congr_left ?_
      intro s _
      simp [overviewRow, Function.comp]
    rw [hcong, sum_fiberwise (fun d => d.compression_status) (fun d => d.size_bytes) (validDocs db)]
  have hcomp : (((get_compression_overview db).2.rows).map
        (fun r => r.total_compressed_size)).sum
      = ((validDocs db).map (fun d => d.compressed_size_bytes.getD 0)).sum := by
    rw [(hperm.map (fun r => r.total_compressed_size)).sum_eq, List.map_map]
    have hcong : ((((validDocs db).map (fun d => d.compression_status)).dedup).map
          ((fun r => r.total_compressed_size) ∘ overviewRow (validDocs db)))
        = ((((validDocs db).map (fun d => d.compression_status)).dedup).map
          (fun s => (((validDocs db).filter
            (fun d => d.compression_status == s)).map
              (fun d => d.compressed_size_bytes.getD 0)).sum)) := by
      refine List.map_congr_left ?_
      intro s _
      simp [overviewRow, Function.comp]
    rw [hcong, sum_fiberwise (fun d => d.compression_status)
      (fun d => d.compressed_size_bytes.getD 0) (validDocs db)]
  have htot : overviewTotals ((get_compression_overview db).2.rows)
      = ((((get_compression_overview db).2.rows).map (fun r => r.count)).sum,
         (((get_compression_overview db).2.rows).map (fun r => r.total_original_size)).sum,
         (((get_compression_overview db).2.rows).map (fun r => r.total_compressed_size)).sum) :=
    overviewTotals_eq _
  refine ⟨?_, ?_, ?_, ?_, ?_, ?_, ?_, ?_, ?_⟩
  · calc (get_compression_overview db).2.total_docs
        = (overviewTotals ((get_compression_overview db).2.rows)).1 := rfl
      _ = ((validDocs db).length : Int) := by rw [htot]; exact hcnt
  · calc (get_compression_overview db).2.total_original
        = (overviewTotals ((get_compression_overview db).2.rows)).2.1 := rfl
      _ = ((validDocs db).map (fun d => d.size_bytes)).sum := by rw [htot]; exact horig
  · calc (get_compression_overview db).2.total_compressed
        = (overviewTotals ((get_compression_overview db).2.rows)).2.2 := rfl
      _ = ((validDocs db).map (fun d => d.compressed_size_bytes.getD 0)).sum := by
          rw [htot]; exact hcomp
  · intro r hr
    rcases List.mem_map.mp (hperm.mem_iff.mp hr) with ⟨s, _, rfl⟩
    refine ⟨?_, ?_, ?_⟩ <;> simp [overviewRow]
  · intro s
    constructor
    · rintro ⟨r, hr, rfl⟩
      rcases List.mem_map.mp (hperm.mem_iff.mp hr) with ⟨s', hs', rfl⟩
      have : s' ∈ (validDocs db).map (fun d => d.compression_status) :=
        List.mem_dedup.mp hs'
      rcases List.mem_map.mp this with ⟨d, hd, rfl⟩
      exact ⟨d, hd, by simp [overviewRow]⟩
    · rintro ⟨d, hd, rfl⟩
      refine ⟨overviewRow (validDocs db) d.compression_status, ?_, rfl⟩
      refine hperm.mem_iff.mpr (List.mem_map.mpr ⟨d.compression_status, ?_, rfl⟩)
      exact List.mem_dedup.mpr (List.mem_map.mpr ⟨d, hd, rfl⟩)
  · intro h1 h2
    have hs : (get_compression_overview db).2.savings_percentage
        = if 0 < (overviewTotals ((get_compression_overview db).2.rows)).2.2
              ∧ 0 < (overviewTotals ((get_compression_overview db).2.rows)).2.1 then
            some ((((overviewTotals ((get_compression_overview db).2.rows)).2.1
                  - (overviewTotals ((get_compression_overview db).2.rows)).2.2 : Int) : ℚ)
                / (((overviewTotals ((get_compression_overview db).2.rows)).2.1 : Int) : ℚ)
                * 100)
          else none := rfl
    rw [hs, if_pos ⟨h1, h2⟩]
    rfl
  · decide
  · decide
  · have h : (get_compression_overview scenarioDB).2.savings_percentage
        = some ((((2000000 - 500000 : Int) : ℚ) / ((2000000 : Int) : ℚ)) * 100) := rfl
    rw [h]
    norm_num

/-- COUNTEREXAMPLE to C1 as stated: the failed-compressions query does not
exclude sentinel rows the way the other queries do — a document with
`compression_status = 'failed'` and `file_path = 'ERROR'` is listed by the
code although the claimed filter (`failed OR has_error`, sentinel rows
excluded) rejects it, because SQL `AND` binds tighter than `OR`. -/
theorem claim_C1_counterexample :
    errorFailedDoc ∈ (get_failed_compressions sentinelFailedDB).2 ∧
    claimedFailedFilter errorFailedDoc = false := by
  decide

/-- CLAIM C1 (amended): `get_failed_compressions` lists exactly the
documents with `compression_status = 'failed'` — the sentinel exclusion
does not apply to these — together with the documents having `has_error`
set whose `file_path` is not `'ERROR'`. -/
theorem claim_C1_failed_listing (db : DB) (d : DocRow) :
    d ∈ (get_failed_compressions db).2
      ↔ d ∈ db.media_documents ∧
        (d.compression_status = "failed"
          ∨ (d.has_error = true ∧ d.file_path ≠ "ERROR")) := by
  simp [get_failed_compressions, List.mem_insertionSort, List.mem_filter, failedFilter]

/-- CLAIM C4: with the queue table present, the snapshot returns at most 20
rows, sorted by `queued_at` descending, and they dominate the omitted
rows: the returned and omitted rows together are a permutation of the
table and every omitted row's `queued_at` is at most every returned
row's. -/
theorem claim_C4_queue_snapshot (db : DB) (q : List QueueRow)
    (h : db.compression_queue = some q) :
    ∃ rows rest : List QueueRow,
      (get_compression_queue_status db).2 = QueueStatusResult.entries rows ∧
      rows.length ≤ 20 ∧
      List.Sorted (fun a b => b.queued_at ≤ a.queued_at) rows ∧
      (rows ++ rest).Perm q ∧
      (∀ a ∈ rows, ∀ b ∈ rest, b.queued_at ≤ a.queued_at) := by
  refine ⟨(List.insertionSort (fun a b => b.queued_at ≤ a.queued_at) q).take 20,
          (List.insertionSort (fun a b => b.queued_at ≤ a.queued_at) q).drop 20,
          ?_, ?_, ?_, ?_, ?_⟩
  · simp [get_compression_queue_status, h]
  · exact List.length_take_le 20 _
  · have hs := List.sorted_insertionSort (fun a b : QueueRow => b.queued_at ≤ a.queued_at) q
    exact List.Pairwise.sublist (List.take_sublist 20 _) hs
  · rw [List.take_append_drop]
    exact List.perm_insertionSort _ q
  · have hs := List.sorted_insertionSort (fun a b : QueueRow => b.queued_at ≤ a.queued_at) q
    rw [← List.take_append_drop 20
      (List.insertionSort (fun a b => b.queued_at ≤ a.queued_at) q)] at hs
    exact (List.pairwise_append.mp hs).2.2

/-- Witness for C4 on a concrete two-row queue table. -/
theorem claim_C4_queue_snapshot_witness :
    ∃ rows rest : List QueueRow,
      (get_compression_queue_status smallQueueDB).2 = QueueStatusResult.entries rows ∧
      rows.length ≤ 20 ∧
      List.Sorted (fun a b => b.queued_at ≤ a.queued_at) rows ∧
      (rows ++ rest).Perm [queueRowOld, queueRowNew] ∧
      (∀ a ∈ rows, ∀ b ∈ rest, b.queued_at ≤ a.queued_at) :=
  claim_C4_queue_snapshot smallQueueDB [queueRowOld, queueRowNew] rfl

/-- Summing a boolean indicator over a list counts the rows passing the
filter (SQL `SUM(CASE WHEN p THEN 1 ELSE 0 END)` versus `COUNT`). -/
theorem sum_map_bool_ite {α : Type} (p : α → Bool) (l : List α) :
    (l.map (fun x => if p x then (1 : Int) else 0)).sum = ((l.filter p).length : Int) := by
  induction l with
  | nil => simp
  | cons x t ih => by_cases h : p x <;> simp [List.filter_cons, h, ih, add_comm]

/-- COUNTEREXAMPLE to C5 as stated: a counted document need not contribute
to any of the three status counts — a database with one type owning one
`pending` document yields an analysis row with `doc_count = 1` but
compressed, failed and skipped counts summing to 0. -/
theorem claim_C5_counterexample :
    ((get_document_types_analysis pendingTypeDB).2.map
        (fun r => (r.doc_count, r.compressed_count + r.failed_count + r.skipped_count)))
      = [(1, 0)] := by
  decide

/-- CLAIM C5 (amended): each document type's analysis row aggregates its
non-sentinel documents — total count; counts of `completed`, `failed` and
`skipped` documents; average and summed original size over a non-empty
group; summed compressed size with `NULL` counted as 0 — and each counted
document contributes to at most one of the three status counts (a
`pending` or `processing` document contributes to none). -/
theorem claim_C5_type_analysis (db : DB) :
    ∀ dt ∈ db.document_types,
      typeAnalysisRow db dt ∈ (get_document_types_analysis db).2 ∧
      (typeAnalysisRow db dt).doc_count = ((typeDocs db dt).length : Int) ∧
      (typeAnalysisRow db dt).compressed_count
          = (((typeDocs db dt).filter
              (fun d => d.compression_status == "completed")).length : Int) ∧
      (typeAnalysisRow db dt).failed_count
          = (((typeDocs db dt).filter
              (fun d => d.compression_status == "failed")).length : Int) ∧
      (typeAnalysisRow db dt).skipped_count
          = (((typeDocs db dt).filter
              (fun d => d.compression_status == "skipped")).length : Int) ∧
      ((typeDocs db dt).length ≠ 0 →
        (typeAnalysisRow db dt).avg_size
            = some ((((typeDocs db dt).map (fun d => d.size_bytes)).sum : ℚ)
                / ((typeDocs db dt).length : ℚ)) ∧
        (typeAnalysisRow db dt).total_original_size
            = some (((typeDocs db dt).map (fun d => d.size_bytes)).sum)) ∧
      (typeAnalysisRow db dt).total_compressed_size
          = ((typeDocs db dt).map (fun d => d.compressed_size_bytes.getD 0)).sum ∧
      (typeAnalysisRow db dt).compressed_count + (typeAnalysisRow db dt).failed_count
          + (typeAnalysisRow db dt).skipped_count
        ≤ (typeAnalysisRow db dt).doc_count := by
  intro dt hdt
  refine ⟨?_, rfl, ?_, ?_, ?_, ?_, rfl, ?_⟩
  · exact (List.mem_insertionSort _).mpr (List.mem_map.mpr ⟨dt, hdt, rfl⟩)
  · simpa [typeAnalysisRow] using
      sum_map_bool_ite (fun d => d.compression_status == "completed") (typeDocs db dt)
  · simpa [typeAnalysisRow] using
      sum_map_bool_ite (fun d => d.compression_status == "failed") (typeDocs db dt)
  · simpa [typeAnalysisRow] using
      sum_map_bool_ite (fun d => d.compression_status == "skipped") (typeDocs db dt)
  · intro hne
    constructor <;> simp [typeAnalysisRow, hne]
  · have hpt : ∀ d ∈ typeDocs db dt,
        (if d.compression_status == "completed" then (1 : Int) else 0)
          + ((if d.compression_status == "failed" then (1 : Int) else 0)
            + (if d.compression_status == "skipped" then (1 : Int) else 0))
          ≤ (fun _ : DocRow => (1 : Int)) d := by
      intro d _
      by_cases h1 : d.compression_status = "completed" <;>
        by_cases h2 : d.compression_status = "failed" <;>
          by_cases h3 : d.compression_status = "skipped" <;>
            simp_all
    have hsum := List.sum_le_sum hpt
    rw [sum_map_split (fun d => if d.compression_status == "completed" then (1 : Int) else 0)
        (fun d => (if d.compression_status == "failed" then (1 : Int) else 0)
          + (if d.compression_status == "skipped" then (1 : Int) else 0)) (typeDocs db dt),
      sum_map_split (fun d => if d.compression_status == "failed" then (1 : Int) else 0)
        (fun d => if d.compression_status == "skipped" then (1 : Int) else 0) (typeDocs db dt),
      sum_map_one] at hsum
    have hfields :
        (typeAnalysisRow db dt).compressed_count + (typeAnalysisRow db dt).failed_count
            + (typeAnalysisRow db dt).skipped_count
          = ((typeDocs db dt).map
              (fun d => if d.compression_status == "completed" then (1 : Int) else 0)).sum
            + (((typeDocs db dt).map
              (fun d => if d.compression_status == "failed" then (1 : Int) else 0)).sum
            + ((typeDocs db dt).map
              (fun d => if d.compression_status == "skipped" then (1 : Int) else 0)).sum) := by
      simp [typeAnalysisRow]
      ring
    rw [hfields]
    simpa [typeAnalysisRow] using hsum

/-- Witness for C5 at the one-type, one-pending-document database. -/
theorem claim_C5_type_analysis_witness :
    typeAnalysisRow pendingTypeDB pdfType ∈ (get_document_types_analysis pendingTypeDB).2 ∧
    (typeAnalysisRow pendingTypeDB pdfType).doc_count
        = ((typeDocs pendingTypeDB pdfType).length : Int) ∧
    (typeAnalysisRow pendingTypeDB pdfType).compressed_count
        = (((typeDocs pendingTypeDB pdfType).filter
            (fun d => d.compression_status == "completed")).length : Int) ∧
    (typeAnalysisRow pendingTypeDB pdfType).failed_count
        = (((typeDocs pendingTypeDB pdfType).filter
            (fun d => d.compression_status == "failed")).length : Int) ∧
    (typeAnalysisRow pendingTypeDB pdfType).skipped_count
        = (((typeDocs pendingTypeDB pdfType).filter
            (fun d => d.compression_status == "skipped")).length : Int) ∧
    ((typeDocs pendingTypeDB pdfType).length ≠ 0 →
      (typeAnalysisRow pendingTypeDB pdfType).avg_size
          = some ((((typeDocs pendingTypeDB pdfType).map (fun d => d.size_bytes)).sum : ℚ)
              / ((typeDocs pendingTypeDB pdfType).length : ℚ)) ∧
      (typeAnalysisRow pendingTypeDB pdfType).total_original_size
          = some (((typeDocs pendingTypeDB pdfType).map (fun d => d.size_bytes)).sum)) ∧
    (typeAnalysisRow pendingTypeDB pdfType).total_compressed_size
        = ((typeDocs pendingTypeDB pdfType).map (fun d => d.compressed_size_bytes.getD 0)).sum ∧
    (typeAnalysisRow pendingTypeDB pdfType).compressed_count
        + (typeAnalysisRow pendingTypeDB pdfType).failed_count
        + (typeAnalysisRow pendingTypeDB pdfType).skipped_count
      ≤ (typeAnalysisRow pendingTypeDB pdfType).doc_count :=
  claim_C5_type_analysis pendingTypeDB pdfType (by decide)

/-- COUNTEREXAMPLE to C6 as stated: under the store invariant the
completed-documents filter still misses a completed document whose
`file_path` is the sentinel `'ERROR'`, so it does not return every
completed document. -/
theorem claim_C6_counterexample :
    storeInvariant sentinelCompletedDB ∧
    errorCompletedDoc ∈ sentinelCompletedDB.media_documents ∧
    errorCompletedDoc.compression_status = "completed" ∧
    errorCompletedDoc ∉ (get_compressed_documents sentinelCompletedDB).2 := by
  refine ⟨?_, by decide, by decide, by decide⟩
  intro d hd
  simp only [sentinelCompletedDB, List.mem_singleton] at hd
  subst hd
  decide

/-- CLAIM C6 (amended): in a database satisfying the documented invariant
(`compressed_path` set iff status `completed`), `get_compressed_documents`
returns exactly the completed documents whose `file_path` is not the
sentinel `'ERROR'`; in particular the `compressed_file_path IS NOT NULL`
conjunct is redundant under the invariant. -/
theorem claim_C6_completed_listing (db : DB) (hinv : storeInvariant db) (d : DocRow) :
    d ∈ (get_compressed_documents db).2
      ↔ d ∈ db.media_documents ∧ d.compression_status = "completed"
          ∧ d.file_path ≠ "ERROR" := by
  simp only [get_compressed_documents, List.mem_insertionSort, List.mem_filter]
  constructor
  · rintro ⟨hd, hf⟩
    simp only [Bool.and_eq_true, beq_iff_eq, bne_iff_ne] at hf
    exact ⟨hd, hf.1.1, hf.2⟩
  · rintro ⟨hd, hst, hfp⟩
    refine ⟨hd, ?_⟩
    have hpath : d.compressed_file_path ≠ none := (hinv d hd).mpr hst
    simp [hst, hfp, Option.isSome_iff_ne_none, hpath]

/-- Witness for C6 at the scenario database, which satisfies the store
invariant. -/
theorem claim_C6_completed_listing_witness :
    scenarioDoc ∈ (get_compressed_documents scenarioDB).2
      ↔ scenarioDoc ∈ scenarioDB.media_documents
          ∧ scenarioDoc.compression_status = "completed"
          ∧ scenarioDoc.file_path ≠ "ERROR" :=
  claim_C6_completed_listing scenarioDB
    (by
      intro d hd
      simp only [scenarioDB, List.mem_singleton] at hd
      subst hd
      decide)
    scenarioDoc

/-- The selected job comes from the candidate list. -/
theorem selectBest_mem (l : List MJob) : ∀ j, selectBest l = some j → j ∈ l := by
  induction l with
  | nil =>
    intro j h
    simp [selectBest] at h
  | cons x t ih =>
    intro j h
    rw [selectBest] at h
    cases hsb : selectBest t with
    | none =>
      rw [hsb] at h
      simp only [Option.some.injEq] at h
      simp [h]
    | some b =>
      rw [hsb] at h
      have h' : (if preferredJob x b = true then some x else some b) = some j := h
      by_cases hp : preferredJob x b = true
      · rw [if_pos hp] at h'
        injection h' with h'
        simp [h']
      · rw [if_neg hp] at h'
        injection h' with h'
        exact List.mem_cons_of_mem _ (h' ▸ ih b hsb)

/-- Invariant of a dequeue-only interleaving: starting from a
duplicate-free claimed list none of whose ids points at a still-queued
job, the interleaving keeps the claimed list duplicate-free and never
leaves a claimed id at a queued job. -/
theorem runDequeues_inv : ∀ (n : Nat) (jobs : List MJob) (claimed : List String),
    claimed.Nodup → NoQueuedClaim claimed jobs →
    (claimed ++ (runDequeues n jobs).1).Nodup ∧
      NoQueuedClaim (claimed ++ (runDequeues n jobs).1) (runDequeues n jobs).2 := by
  intro n
  induction n with
  | zero =>
    intro jobs claimed hnd hinv
    simpa [runDequeues] using ⟨hnd, hinv⟩
  | succ n ih =>
    intro jobs claimed hnd hinv
    cases hsb : selectBest (jobs.filter isQueued) with
    | none =>
      have hdq : dequeue jobs = (none, jobs) := by
        rw [dequeue, hsb]
      have hrun : runDequeues (n + 1) jobs = runDequeues n jobs := by
        rw [runDequeues, hdq]
        simp
      rw [hrun]
      exact ih jobs claimed hnd hinv
    | some j =>
      have hjq : j ∈ jobs.filter isQueued := selectBest_mem _ j hsb
      have hjmem : j ∈ jobs := (List.mem_filter.mp hjq).1
      have hjqueued : j.status = "queued" := by
        have hq := (List.mem_filter.mp hjq).2
        simpa [isQueued] using hq
      have hdq : dequeue jobs = (some j.document_id,
          jobs.map (fun k =>
            if k.document_id == j.document_id && isQueued k then
              { k with status := "running" }
            else k)) := by
        rw [dequeue, hsb]
      have hrun1 : (runDequeues (n + 1) jobs).1
          = j.document_id :: (runDequeues n (jobs.map (fun k =>
              if k.document_id == j.document_id && isQueued k then
                { k with status := "running" }
              else k))).1 := by
        rw [runDequeues, hdq]
        simp
      have hrun2 : (runDequeues (n + 1) jobs).2
          = (runDequeues n (jobs.map (fun k =>
              if k.document_id == j.document_id && isQueued k then
                { k with status := "running" }
              else k))).2 := by
        rw [runDequeues, hdq]
      have hnotin : j.document_id ∉ claimed := fun hc =>
        hinv _ hc j hjmem rfl hjqueued
      have hnd' : (claimed ++ [j.document_id]).Nodup := by
        simp [List.nodup_append, hnd, hnotin]
      have hinv' : NoQueuedClaim (claimed ++ [j.document_id])
          (jobs.map (fun k =>
            if k.document_id == j.document_id && isQueued k then
              { k with status := "running" }
            else k)) := by
        intro c hc k' hk' hid
        rcases List.mem_map.mp hk' with ⟨k, hk, hkeq⟩
        by_cases hcond : (k.document_id == j.document_id && isQueued k) = true
        · rw [if_pos hcond] at hkeq
          rw [← hkeq]
          intro hcontra
          exact absurd hcontra (by simp)
        · rw [if_neg hcond] at hkeq
          subst hkeq
          rcases List.mem_append.mp hc with hcl | hcr
          · exact hinv c hcl k hk hid
          · have hcj : c = j.document_id := by simpa using hcr
            subst hcj
            intro hkq
            apply hcond
            simp [hid, isQueued, hkq]
      have hmain := ih _ (claimed ++ [j.document_id]) hnd' hinv'
      constructor
      · rw [hrun1]
        have hshape : claimed ++ j.document_id :: (runDequeues n (jobs.map (fun k =>
            if k.document_id == j.document_id && isQueued k then
              { k with status := "running" }
            else k))).1
            = (claimed ++ [j.document_id]) ++ (runDequeues n (jobs.map (fun k =>
              if k.document_id == j.document_id && isQueued k then
                { k with status := "running" }
              else k))).1 := by
          simp
        rw [hshape]
        exact hmain.1
      · rw [hrun1, hrun2]
        intro c hc
        refine hmain.2 c ?_
        simpa using hc

/-- CLAIM C7 (modelled from the spec, §4.3 and §5): `dequeue()` is an
atomic conditional claim — it claims a job only when that job's current
status is `queued` — and therefore any interleaving of workers each
performing atomic dequeues claims pairwise-distinct jobs: the claimed id
list of `runDequeues` never repeats a document id. -/
theorem claim_C7_dequeue_mutual_exclusion :
    (∀ (jobs : List MJob) (cid : String) (rest : List MJob),
      dequeue jobs = (some cid, rest) →
      ∃ j ∈ jobs, j.status = "queued" ∧ j.document_id = cid) ∧
    (∀ (n : Nat) (jobs : List MJob), ((runDequeues n jobs).1).Nodup) := by
  constructor
  · intro jobs cid rest h
    rw [dequeue] at h
    cases hsb : selectBest (jobs.filter isQueued) with
    | none =>
      rw [hsb] at h
      simp at h
    | some j =>
      rw [hsb] at h
      have hjq : j ∈ jobs.filter isQueued := selectBest_mem _ j hsb
      have hjmem : j ∈ jobs := (List.mem_filter.mp hjq).1
      have hjqueued : j.status = "queued" := by
        have hq := (List.mem_filter.mp hjq).2
        simpa [isQueued] using hq
      have hcid : j.document_id = cid := by
        have hpair := congrArg Prod.fst h
        simpa using hpair
      exact ⟨j, hjmem, hjqueued, hcid⟩
  · intro n jobs
    have hmain := runDequeues_inv n jobs [] List.nodup_nil
      (by intro c hc; simp at hc)
    simpa using hmain.1

end DebugCompression
